import Mathlib

/-!
Shallow embedding of the interactive vector diagram editor
(`src/lib/DiagramEditor.tsx`) of the ExamGenAi repository, together with
proofs settling the frozen claims about its specification.

Conventions of the embedding:
* JS numbers are modelled as `ℚ` (exact rationals standing in for the
  editor's floats; no claim below depends on floating-point rounding).
* JS `undefined`/absent optional fields are modelled as `Option` fields.
* A JS value that may be `NaN` is modelled as `Option ℚ` with `none`
  standing for `NaN`, at the places where the distinction is observable.
* The React component's `useState` cells are collected into one
  `EditorState` record; each event handler becomes a pure function
  `EditorState → EditorState`.
* `Math.sqrt` has no exact rational counterpart, so functions calling it
  (`distance`, used only for the committed circle radius in
  `handleMouseUp`) take the square-root function as an explicit
  parameter; every theorem about them holds for an arbitrary such
  parameter, so no conclusion depends on the value of a square root.
-/

/-- A 2-D point `{x, y}` in editor-canvas coordinates. -/
structure Pt where
  x : ℚ
  y : ℚ
deriving DecidableEq, Repr

/-- The `ToolType` union of `DiagramEditor.tsx`. -/
inductive ToolType where
  | select | line | rect | circle | triangle | polygon
  | angle_maker | pencil | text | eraser | whiteout
deriving DecidableEq, Repr

/-- The `style` object attached to text elements (`{ fontSize }`). -/
structure TextStyle where
  fontSize : ℚ
deriving DecidableEq, Repr

/-- The `DrawingElement` record of `DiagramEditor.tsx`: one loosely-typed
record with optional fields per kind, exactly as in the source. -/
structure DrawingElement where
  id : ℚ
  type : ToolType
  points : Option (List Pt) := none
  x : Option ℚ := none
  y : Option ℚ := none
  width : Option ℚ := none
  height : Option ℚ := none
  r : Option ℚ := none
  text : Option String := none
  angleLabel : Option String := none
  startAngle : Option ℚ := none
  endAngle : Option ℚ := none
  stroke : Option String := none
  strokeWidth : Option ℚ := none
  strokeDasharray : Option String := none
  fill : Option String := none
  style : Option TextStyle := none
deriving DecidableEq, Repr

/-- The editor component's `useState` cells that the claims touch,
with the initial values used by the component. -/
structure EditorState where
  elements : List DrawingElement := []
  history : List (List DrawingElement) := []
  historyStep : Int := -1
  hasParsedContent : Bool := false
  tool : ToolType := .select
  selectedId : Option ℚ := none
  resizeHandle : Option String := none
  isDrawing : Bool := false
  startPoint : Option Pt := none
  currentPoint : Option Pt := none
  pencilPath : List Pt := []
  polyPoints : List Pt := []
  angleVertex : Option Pt := none
  angleStart : Option Pt := none
  snapPos : Option Pt := none
  textInputPos : Option Pt := none
  textInputValue : String := ""
  editingTextId : Option ℚ := none
  strokeWidth : ℚ := 2
  strokeDash : String := "none"
  fontSize : ℚ := 24
deriving DecidableEq, Repr

/-- `pushHistory(newElements)`: truncate the history after the cursor
(`history.slice(0, historyStep + 1)`), append the new snapshot, place the
cursor on it and make it the active set. -/
def pushHistory (s : EditorState) (newElements : List DrawingElement) :
    EditorState :=
  let newHistory := s.history.take (s.historyStep + 1).toNat ++ [newElements]
  { s with history := newHistory,
           historyStep := (newHistory.length : Int) - 1,
           elements := newElements }

/-- `undo()`: if the cursor is positive, step it back and restore that
snapshot; if it is exactly 0, clear the active set and move the cursor to
`-1` (the pseudo-step below the first snapshot); otherwise do nothing.
`history[historyStep - 1]` is modelled with `List.getD` (the index is in
range on every reachable state). -/
def undo (s : EditorState) : EditorState :=
  if 0 < s.historyStep then
    { s with historyStep := s.historyStep - 1,
             elements := s.history.getD (s.historyStep - 1).toNat [] }
  else if s.historyStep = 0 then
    { s with historyStep := -1, elements := [] }
  else s

/-- `redo()`: if the cursor is before the last snapshot, advance it and
restore that snapshot; otherwise do nothing. -/
def redo (s : EditorState) : EditorState :=
  if s.historyStep < (s.history.length : Int) - 1 then
    { s with historyStep := s.historyStep + 1,
             elements := s.history.getD (s.historyStep + 1).toNat [] }
  else s

/-- The toolbar `ToolBtn` `onClick` handlers: every button sets the tool;
the polygon button additionally clears `polyPoints`, and the angle button
additionally clears `angleVertex` and `angleStart`. No other button
touches any gesture buffer. -/
def selectTool (t : ToolType) (s : EditorState) : EditorState :=
  if t = .angle_maker then
    { s with tool := t, angleVertex := none, angleStart := none }
  else if t = .polygon then
    { s with tool := t, polyPoints := [] }
  else
    { s with tool := t }

/-- The `distance` helper (`Math.sqrt` of the squared distance), with the
square-root function passed in explicitly (see module docstring). -/
def distance (sqrtFn : ℚ → ℚ) (p1 p2 : Pt) : ℚ :=
  sqrtFn ((p2.x - p1.x) ^ 2 + (p2.y - p1.y) ^ 2)

/-- The committed element built by `handleMouseUp` for the single-drag
tools, from the anchor `sp` and release position `cp`. Tools that reach
this code path but match none of the geometry branches would commit the
styled base element, exactly as in the source's `if` chain. -/
def mouseUpElement (sqrtFn : ℚ → ℚ) (now : ℚ) (s : EditorState)
    (sp cp : Pt) : DrawingElement :=
  let base : DrawingElement :=
    { id := now, type := s.tool,
      stroke := some (if s.tool = .eraser ∨ s.tool = .whiteout
                      then "white" else "black"),
      strokeWidth := some s.strokeWidth,
      strokeDasharray := some s.strokeDash,
      fill := some (if s.tool = .whiteout then "white" else "none") }
  match s.tool with
  | .line => { base with points := some [sp, cp] }
  | .rect =>
      { base with x := some (min sp.x cp.x), y := some (min sp.y cp.y),
                  width := some (abs (cp.x - sp.x)),
                  height := some (abs (cp.y - sp.y)) }
  | .whiteout =>
      { base with x := some (min sp.x cp.x), y := some (min sp.y cp.y),
                  width := some (abs (cp.x - sp.x)),
                  height := some (abs (cp.y - sp.y)),
                  stroke := some "none" }
  | .triangle =>
      { base with points := some ([⟨(sp.x + cp.x) / 2, min sp.y cp.y⟩,
          ⟨max sp.x cp.x, max sp.y cp.y⟩,
          ⟨min sp.x cp.x, max sp.y cp.y⟩] : List Pt) }
  | .circle =>
      { base with x := some sp.x, y := some sp.y,
                  r := some (distance sqrtFn sp cp) }
  | .pencil => { base with points := some s.pencilPath }
  | .eraser =>
      { base with points := some s.pencilPath, strokeWidth := some 20 }
  | _ => base

/-- `handleMouseUp`: the select tool commits the (possibly dragged)
active set; angle/text/polygon return early; otherwise, if a drag is in
progress with both anchor and current point present, the finished shape
is built and committed, after which the anchor and pencil buffer are
cleared. `now` models `Date.now()`. -/
def handleMouseUp (sqrtFn : ℚ → ℚ) (now : ℚ) (s : EditorState) :
    EditorState :=
  if s.tool = .select then
    let s1 := if s.isDrawing then pushHistory s s.elements else s
    { s1 with isDrawing := false, resizeHandle := none }
  else if s.tool = .angle_maker ∨ s.tool = .text then s
  else if s.tool = .polygon then s
  else if s.isDrawing then
    match s.startPoint, s.currentPoint with
    | some sp, some cp =>
        let s1 := { s with isDrawing := false }
        let newEl := mouseUpElement sqrtFn now s sp cp
        let s2 := pushHistory s1 (s1.elements ++ [newEl])
        { s2 with startPoint := none, pencilPath := [] }
    | _, _ => s
  else s

/-- JS truthiness of the `selectedId : number | null` cell: truthy iff
present and nonzero. -/
def selectedIdTruthy (s : EditorState) : Bool :=
  match s.selectedId with
  | some i => decide (i ≠ 0)
  | none => false

/-- `handleDoubleClick`: with the polygon tool and more than 2 pending
vertices, commit the polygon and clear the vertex buffer; with the select
tool and a truthy selection on a text element, open the inline text
editor on it. -/
def handleDoubleClick (now : ℚ) (s : EditorState) : EditorState :=
  if s.tool = .polygon ∧ 2 < s.polyPoints.length then
    let newEl : DrawingElement :=
      { id := now, type := .polygon, points := some s.polyPoints,
        stroke := some "black", strokeWidth := some s.strokeWidth,
        strokeDasharray := some s.strokeDash, fill := some "none" }
    let s1 := pushHistory s (s.elements ++ [newEl])
    { s1 with polyPoints := [] }
  else if s.tool = .select ∧ selectedIdTruthy s then
    match s.elements.find? (fun e => e.id = s.selectedId.getD 0) with
    | some el =>
        if el.type = .text then
          { s with editingTextId := some el.id,
                   textInputPos := some ⟨el.x.getD 0, el.y.getD 0⟩,
                   textInputValue :=
                     match el.text with
                     | some t => if t = "" then "" else t
                     | none => "" }
        else s
    | none => s
  else s

/-!
JSON model for the embedded metadata payload. `handleSave` embeds
`JSON.stringify(elements)` in the `desc#drawing-state` node and the
initialization `useEffect` re-reads it with `JSON.parse` and uses the
result verbatim as the element array. The string layer of
`JSON.stringify`/`JSON.parse` is library behaviour (it round-trips the
value tree), so the payload is modelled as the JSON value tree itself:
`encodeElement` is what `JSON.stringify` records — optional fields that
are `undefined` are omitted from the object — and `decodeElement` is the
reading of that parsed object back as a `DrawingElement` (an absent key
reads as `undefined`, i.e. `none`; a payload that is not a well-formed
element array models a `JSON.parse` failure and sends the importer to the
fallback path).
-/

/-- JSON value trees. -/
inductive Json where
  | null
  | bool (b : Bool)
  | num (q : ℚ)
  | str (s : String)
  | arr (xs : List Json)
  | obj (fields : List (String × Json))

/-- One hexadecimal digit, lower case. -/
def hexDigit : ℕ → String
  | 0 => "0" | 1 => "1" | 2 => "2" | 3 => "3" | 4 => "4"
  | 5 => "5" | 6 => "6" | 7 => "7" | 8 => "8" | 9 => "9"
  | 10 => "a" | 11 => "b" | 12 => "c" | 13 => "d" | 14 => "e" | 15 => "f"
  | _ => "0"

/-- `JSON.stringify`'s escaping of one character inside a string
literal: `"`, `\`, the named control escapes, `\u00XX` for the other
control characters, and every other character (including `<`, `&`, `]`)
verbatim. -/
def escapeJsonChar (c : Char) : String :=
  if c = '"' then "\""
  else if c = '\\' then "\\\\"
  else if c = '\n' then "\\n"
  else if c = '\r' then "\\r"
  else if c = '\t' then "\\t"
  else if c = '\x08' then "\\b"
  else if c = '\x0c' then "\\f"
  else if c.toNat < 32 then
    "\\u00" ++ hexDigit (c.toNat / 16) ++ hexDigit (c.toNat % 16)
  else String.mk [c]

def escapeJsonString (s : String) : String :=
  String.join (s.toList.map escapeJsonChar)

/-- The numeral `JSON.stringify` emits for a number. JS prints the
double in decimal; the model prints the exact rational. Only the
numeral's alphabet (digits, `-`, `/`) — always legal XML character
data — matters to any statement below. -/
def printRat (q : ℚ) : String :=
  if q.den = 1 then toString q.num
  else toString q.num ++ "/" ++ toString q.den

mutual

/-- `JSON.stringify` on a value tree. -/
def stringifyJson : Json → String
  | .null => "null"
  | .bool b => if b then "true" else "false"
  | .num q => printRat q
  | .str s => "\"" ++ escapeJsonString s ++ "\""
  | .arr xs => "[" ++ stringifyList xs ++ "]"
  | .obj fs => "\x7b" ++ stringifyFields fs ++ "\x7d"

def stringifyList : List Json → String
  | [] => ""
  | [x] => stringifyJson x
  | x :: y :: rest => stringifyJson x ++ "," ++ stringifyList (y :: rest)

def stringifyFields : List (String × Json) → String
  | [] => ""
  | [(k, v)] => "\"" ++ escapeJsonString k ++ "\":" ++ stringifyJson v
  | (k, v) :: p :: rest =>
      "\"" ++ escapeJsonString k ++ "\":" ++ stringifyJson v ++ ","
        ++ stringifyFields (p :: rest)

end

structure Box where
  minX : ℚ
  maxX : ℚ
  minY : ℚ
  maxY : ℚ
deriving DecidableEq, Repr

/-- The `check(x, y)` / `update(x, y)` closures. -/
def boundsCheck (b : Option Box) (x y : ℚ) : Option Box :=
  match b with
  | none => some ⟨x, x, y, y⟩
  | some bb =>
      some ⟨min bb.minX x, max bb.maxX x, min bb.minY y, max bb.maxY y⟩

/-- One element's contribution inside `normalizeAndFit`: point lists,
`rect` corners (not `whiteout`), circle extrema, and a fixed 20×20 box at
a text anchor. -/
def normStep (b : Option Box) (e : DrawingElement) : Option Box :=
  let ex := e.x.getD 0
  let ey := e.y.getD 0
  let b1 := match e.points with
    | some ps => ps.foldl (fun b p => boundsCheck b p.x p.y) b
    | none => b
  let b2 := if e.type = .rect then
      boundsCheck (boundsCheck b1 ex ey)
        (ex + e.width.getD 0) (ey + e.height.getD 0)
    else b1
  let b3 := if e.type = .circle then
      boundsCheck (boundsCheck b2 (ex - e.r.getD 0) (ey - e.r.getD 0))
        (ex + e.r.getD 0) (ey + e.r.getD 0)
    else b2
  if e.type = .text then
    boundsCheck (boundsCheck b3 ex ey) (ex + 20) (ey + 20)
  else b3

/-- The bounds-accumulation loop of `normalizeAndFit`. -/
def normBounds (els : List DrawingElement) : Option Box :=
  els.foldl normStep none

/-- `el.style?.fontSize || 24` in `handleSave`. -/
def saveFontSize (e : DrawingElement) : ℚ :=
  match e.style with
  | some st => if st.fontSize = 0 then 24 else st.fontSize
  | none => 24

/-- One element's contribution inside `handleSave`: point lists,
`rect`/`whiteout` corners, circle extrema, the font-size-based text
footprint (width `0.6 × fontSize × length`, from `y − fontSize` down to
`y + 0.2 × fontSize`), and the angle-annotation anchor. -/
def saveStep (b : Option Box) (e : DrawingElement) : Option Box :=
  let ex := e.x.getD 0
  let ey := e.y.getD 0
  let b1 := match e.points with
    | some ps => ps.foldl (fun b p => boundsCheck b p.x p.y) b
    | none => b
  let b2 := if e.type = .rect ∨ e.type = .whiteout then
      boundsCheck (boundsCheck b1 ex ey)
        (ex + e.width.getD 0) (ey + e.height.getD 0)
    else b1
  let b3 := if e.type = .circle then
      boundsCheck (boundsCheck b2 (ex - e.r.getD 0) (ey - e.r.getD 0))
        (ex + e.r.getD 0) (ey + e.r.getD 0)
    else b2
  let b4 := if e.type = .text then
      let fSize := saveFontSize e
      let w := ((e.text.getD "").length : ℚ) * fSize * (3 / 5)
      boundsCheck (boundsCheck b3 ex (ey - fSize)) (ex + w) (ey + fSize * (1 / 5))
    else b3
  if e.type = .angle_maker then boundsCheck b4 ex ey else b4

/-- The bounds-accumulation loop of `handleSave`. -/
def saveBounds (els : List DrawingElement) : Option Box :=
  els.foldl saveStep none

/-- `normalizeAndFit`: compute bounds, a uniform scale
`min(target/contentW, target/contentH, 10)` (a zero-size dimension gives
`Infinity` in JS and so never realizes the minimum — modelled by dropping
that candidate), a centering offset, and apply them to every
coordinate-bearing field, with floors on stroke width (≥1) and font size
(≥12); truthiness checks mean zero-valued width/height/r/strokeWidth/
fontSize are left untouched. -/
def normalizeAndFit (els : List DrawingElement) : List DrawingElement :=
  if els.length = 0 then els
  else match normBounds els with
  | none => els
  | some b =>
    let contentW := b.maxX - b.minX
    let contentH := b.maxY - b.minY
    let targetSize : ℚ := 512 - 2 * 40
    let scale :=
      if contentW = 0 ∧ contentH = 0 then 10
      else if contentW = 0 then min (targetSize / contentH) 10
      else if contentH = 0 then min (targetSize / contentW) 10
      else min (min (targetSize / contentW) (targetSize / contentH)) 10
    let offsetX := (512 - contentW * scale) / 2 - b.minX * scale
    let offsetY := (512 - contentH * scale) / 2 - b.minY * scale
    els.map (fun el =>
      { el with
        points := el.points.map
          (List.map (fun p => ⟨p.x * scale + offsetX, p.y * scale + offsetY⟩)),
        x := el.x.map (fun v => v * scale + offsetX),
        y := el.y.map (fun v => v * scale + offsetY),
        width := el.width.map (fun w => if w = 0 then w else w * scale),
        height := el.height.map (fun h => if h = 0 then h else h * scale),
        r := el.r.map (fun rr => if rr = 0 then rr else rr * scale),
        strokeWidth := el.strokeWidth.map
          (fun w => if w = 0 then w else max 1 (w * scale)),
        style := el.style.map
          (fun st => if st.fontSize = 0 then st else ⟨max 12 (st.fontSize * scale)⟩) })

/-!
String-level helpers. `parseFloat`, `Number()` and
`String.split(/\s+|,/)` are modelled over `List Char`. `none` models a
`NaN` result. Scope notes recorded once here: the model covers decimal
numeric literals (the special strings `Infinity`/hex literals that JS
would also accept are treated as unparsable, and a `NaN` that the source
immediately coerces with `|| 0` is modelled as `0`); whitespace is the
ASCII whitespace subset of JS `\s`. No claim depends on inputs outside
this scope.
-/

def isWsChar (c : Char) : Bool :=
  c = ' ' ∨ c = '\t' ∨ c = '\n' ∨ c = '\r' ∨ c = '\x0b' ∨ c = '\x0c'

def digitsToNat (l : List Char) : ℕ :=
  l.foldl (fun a c => 10 * a + (c.toNat - 48)) 0

/-- Ten to a natural power, by plain recursion (kernel-reducible, unlike
the instance-routed `Monoid` power). -/
def powNat10 : ℕ → ℚ
  | 0 => 1
  | n + 1 => 10 * powNat10 n

/-- Ten to an integer power. -/
def pow10 : ℤ → ℚ
  | .ofNat n => powNat10 n
  | .negSucc n => 1 / powNat10 (n + 1)

/-- Parse a decimal mantissa (`digits`, `digits.digits`, `.digits`),
returning its value and the rest; `none` when no digit is found. -/
def mantissaParse (l : List Char) : Option (ℚ × List Char) :=
  let ds := l.takeWhile Char.isDigit
  let r1 := l.drop ds.length
  match r1 with
  | '.' :: t =>
      let fs := t.takeWhile Char.isDigit
      if ds.isEmpty ∧ fs.isEmpty then none
      else some ((digitsToNat ds : ℚ)
                   + (digitsToNat fs : ℚ) / powNat10 fs.length,
                 t.drop fs.length)
  | _ => if ds.isEmpty then none else some ((digitsToNat ds : ℚ), r1)

/-- The exponent part as `parseFloat` reads it: an `e`/`E` with no
following digits is simply not part of the number. -/
def expLenient (l : List Char) : Int :=
  let core : List Char → Int := fun t =>
    let ds := t.takeWhile Char.isDigit
    if ds.isEmpty then 0 else (digitsToNat ds : Int)
  match l with
  | 'e' :: '+' :: t => core t
  | 'e' :: '-' :: t => - core t
  | 'e' :: t => core t
  | 'E' :: '+' :: t => core t
  | 'E' :: '-' :: t => - core t
  | 'E' :: t => core t
  | _ => 0

def parseFloatCore (l : List Char) : Option ℚ :=
  (mantissaParse l).map (fun p => p.1 * pow10 (expLenient p.2))

/-- JS `parseFloat`: leading whitespace skipped, longest numeric prefix
parsed, `NaN` (`none`) when no digit occurs at the front. -/
def parseFloat (s : String) : Option ℚ :=
  match s.toList.dropWhile isWsChar with
  | '+' :: t => parseFloatCore t
  | '-' :: t => (parseFloatCore t).map Neg.neg
  | t => parseFloatCore t

/-- The exponent part as `Number()` reads it: digits are required. -/
def expFull (l : List Char) : Option (Int × List Char) :=
  let core : List Char → Option (ℕ × List Char) := fun t =>
    let ds := t.takeWhile Char.isDigit
    if ds.isEmpty then none else some (digitsToNat ds, t.drop ds.length)
  match l with
  | 'e' :: '+' :: t => (core t).map (fun p => ((p.1 : Int), p.2))
  | 'e' :: '-' :: t => (core t).map (fun p => (-(p.1 : Int), p.2))
  | 'e' :: t => (core t).map (fun p => ((p.1 : Int), p.2))
  | 'E' :: '+' :: t => (core t).map (fun p => ((p.1 : Int), p.2))
  | 'E' :: '-' :: t => (core t).map (fun p => (-(p.1 : Int), p.2))
  | 'E' :: t => (core t).map (fun p => ((p.1 : Int), p.2))
  | _ => some (0, l)

def jsNumBody (l : List Char) : Option ℚ :=
  (mantissaParse l).bind fun p =>
    (expFull p.2).bind fun q =>
      if q.2.isEmpty then some (p.1 * pow10 q.1) else none

/-- JS `Number()` on a string: trim, empty means `0`, otherwise the whole
trimmed string must be a signed decimal literal; anything else is `NaN`
(`none`). -/
def jsNumber (s : String) : Option ℚ :=
  let l := s.toList.dropWhile isWsChar
  let l := (l.reverse.dropWhile isWsChar).reverse
  match l with
  | [] => some 0
  | '+' :: t => jsNumBody t
  | '-' :: t => (jsNumBody t).map Neg.neg
  | t => jsNumBody t

/-- `String.split(/\s+|,/)`: a whitespace run or a single comma is one
separator; adjacent separators produce empty tokens. -/
def splitJsAux (l : List Char) (acc : List Char) : List String :=
  match l with
  | [] => [String.mk acc.reverse]
  | c :: rest =>
      if c = ',' then String.mk acc.reverse :: splitJsAux rest []
      else if isWsChar c then
        String.mk acc.reverse :: splitJsAux (rest.dropWhile isWsChar) []
      else splitJsAux rest (c :: acc)
termination_by l.length
decreasing_by
  · simp
  · have hd : (rest.dropWhile isWsChar).length ≤ rest.length := by
      induction rest with
      | nil => simp [List.dropWhile]
      | cons a t ih =>
          by_cases h : isWsChar a
          · simp only [List.dropWhile, h, List.length_cons]
            omega
          · simp [List.dropWhile, h]
    simp
    omega
  · simp

def splitJs (l : List Char) : List String := splitJsAux l []

/-! The `/translate\(([^,]+)[,\s]([^)]+)\)/` matcher: leftmost match,
greedy groups with backtracking on the first group. -/

/-- Match `[^)]+\)`: maximal munch needs no backtracking, since
shrinking it only moves a non-`)` character in front of the `\)`. -/
def g2Match (rest : List Char) : Option (List Char) :=
  let g2 := rest.takeWhile (fun c => c ≠ ')')
  if g2.isEmpty then none
  else match rest.drop g2.length with
    | ')' :: _ => some g2
    | _ => none

/-- Try the group-1 candidates longest-first: `gRev` is the current
(reversed) candidate for `[^,]+`, `rest` what follows it. -/
def g1Loop : List Char → List Char → Option (List Char × List Char)
  | [], _ => none
  | c :: gRev2, rest =>
      let shrunk := g1Loop gRev2 (c :: rest)
      match rest with
      | sep :: rest2 =>
          if sep = ',' ∨ isWsChar sep then
            match g2Match rest2 with
            | some g2 => some ((c :: gRev2).reverse, g2)
            | none => shrunk
          else shrunk
      | [] => shrunk

/-- Attempt the pattern right after a literal `translate(`. -/
def matchAfterParen (cs : List Char) : Option (List Char × List Char) :=
  let g1max := cs.takeWhile (fun c => c ≠ ',')
  g1Loop g1max.reverse (cs.drop g1max.length)

def startsWithCh : List Char → List Char → Bool
  | [], _ => true
  | _ :: _, [] => false
  | p :: ps, c :: cs => if p = c then startsWithCh ps cs else false

def translateLit : List Char := "translate(".toList

/-- Leftmost search for the translate pattern; on a failed attempt the
start position advances one character. -/
def findTranslate : List Char → Option (String × String)
  | [] => none
  | c :: rest =>
      if startsWithCh translateLit (c :: rest) then
        match matchAfterParen ((c :: rest).drop translateLit.length) with
        | some (g1, g2) => some (String.mk g1, String.mk g2)
        | none => findTranslate rest
      else findTranslate rest

/-- `parseTransform`: a falsy (absent or empty) input and a string the
pattern does not match yield `{0,0}`; a match yields `parseFloat` of the
two captures (which is `NaN`, modelled `none`, on non-numeric
captures). -/
def parseTransform (s? : Option String) : Option ℚ × Option ℚ :=
  match s? with
  | none => (some 0, some 0)
  | some s =>
      if s = "" then (some 0, some 0)
      else match findTranslate s.toList with
        | some (g1, g2) => (parseFloat g1, parseFloat g2)
        | none => (some 0, some 0)

/-!
The raw-markup fallback importer (`traverse` inside the initialization
`useEffect`). An SVG node is a grouping node carrying a transform and
children, one of the five supported leaf shapes, a text leaf, or an
unsupported leaf (silently skipped). A leaf's own `transform` attribute
is not read by the source, so leaves carry none here. Element ids
(`Date.now() + Math.random()` per recovered element) are modelled by a
threaded counter.
-/

inductive SvgNode where
  | g (transform : Option String) (children : List SvgNode)
  | line (x1 y1 x2 y2 stroke strokeWidth fill : Option String)
  | polyline (pointsAttr stroke strokeWidth fill : Option String)
  | polygon (pointsAttr stroke strokeWidth fill : Option String)
  | rect (x y width height stroke strokeWidth fill : Option String)
  | circle (cx cy r stroke strokeWidth fill : Option String)
  | text (x y fontSizeAttr : Option String) (content : String)
  | unsupported

/-- `attr || "default"`: a missing or empty attribute falls back. -/
def attrOr (a : Option String) (d : String) : String :=
  match a with
  | some s => if s = "" then d else s
  | none => d

/-- `Number(attr) || 0` (also `Number(null) = 0` for a missing
attribute). -/
def numAttr (a : Option String) : ℚ :=
  match a with
  | none => 0
  | some s => (jsNumber s).getD 0

/-- `parseFloat(attr || "1")` for stroke widths, with `NaN` modelled as
0 (both are falsy wherever the value is later tested). -/
def strokeWidthAttr (a : Option String) : ℚ :=
  (parseFloat (attrOr a "1")).getD 0

/-- The cumulative translation contributed by one `transform`
attribute. -/
def offsetOf (t : Option String) : Pt :=
  let p := parseTransform t
  ⟨p.1.getD 0, p.2.getD 0⟩

/-- The `tp` closure: apply the cumulative translation. -/
def tpQ (cur : Pt) (x y : ℚ) : Pt := ⟨x + cur.x, y + cur.y⟩

/-- The `for(let i=0; i<rawPoints.length; i+=2)` pairing; an odd tail
reads `undefined` for `y`, which `Number(y) || 0` turns into 0. -/
def pairUp : List ℚ → List (ℚ × ℚ)
  | [] => []
  | [x] => [(x, 0)]
  | x :: y :: rest => (x, y) :: pairUp rest

/-- `(points attribute || "").trim().split(/\s+|,/).map(Number)
.filter(n => !isNaN(n))`. -/
def parsePointsAttr (a : Option String) : List ℚ :=
  let l := (attrOr a "").toList.dropWhile isWsChar
  let l := (l.reverse.dropWhile isWsChar).reverse
  ((splitJs l).map jsNumber).filterMap id

/-- The elements recovered from one supported leaf node. -/
def visitLeaf (cur : Pt) (n : SvgNode) (nid : ℕ) :
    List DrawingElement × ℕ :=
  match n with
  | .line x1 y1 x2 y2 stroke sw _fill =>
      ([{ id := (nid : ℚ), type := .line,
          points := some [tpQ cur (numAttr x1) (numAttr y1),
                          tpQ cur (numAttr x2) (numAttr y2)],
          stroke := some (attrOr stroke "black"),
          strokeWidth := some (strokeWidthAttr sw) }], nid + 1)
  | .polyline pts stroke sw _fill =>
      let points := (pairUp (parsePointsAttr pts)).map
        (fun p => tpQ cur p.1 p.2)
      if 0 < points.length then
        ([{ id := (nid : ℚ), type := .pencil, points := some points,
            stroke := some (attrOr stroke "black"),
            strokeWidth := some (strokeWidthAttr sw),
            fill := some "none" }], nid + 1)
      else ([], nid)
  | .polygon pts stroke sw _fill =>
      let points := (pairUp (parsePointsAttr pts)).map
        (fun p => tpQ cur p.1 p.2)
      if 0 < points.length then
        ([{ id := (nid : ℚ), type := .polygon, points := some points,
            stroke := some (attrOr stroke "black"),
            strokeWidth := some (strokeWidthAttr sw),
            fill := some "none" }], nid + 1)
      else ([], nid)
  | .rect x y w h stroke sw fill =>
      let p := tpQ cur (numAttr x) (numAttr y)
      ([{ id := (nid : ℚ), type := .rect, x := some p.x, y := some p.y,
          width := some (numAttr w), height := some (numAttr h),
          stroke := some (attrOr stroke "black"),
          strokeWidth := some (strokeWidthAttr sw),
          fill := some (attrOr fill "none") }], nid + 1)
  | .circle cx cy r stroke sw fill =>
      let p := tpQ cur (numAttr cx) (numAttr cy)
      ([{ id := (nid : ℚ), type := .circle, x := some p.x, y := some p.y,
          r := some (numAttr r),
          stroke := some (attrOr stroke "black"),
          strokeWidth := some (strokeWidthAttr sw),
          fill := some (attrOr fill "none") }], nid + 1)
  | .text x y fsAttr content =>
      let p := tpQ cur (numAttr x) (numAttr y)
      ([{ id := (nid : ℚ), type := .text, x := some p.x, y := some p.y,
          text := some content,
          style := some ⟨(parseFloat (attrOr fsAttr "16")).getD 0⟩ }], nid + 1)
  | _ => ([], nid)

mutual

/-- `traverse(node, parentTransform)` dispatch on one child: a `g` child
is recursed into with its own transform accumulated, a leaf child is
converted with the current cumulative transform. -/
def visitChild (cur : Pt) (c : SvgNode) (nid : ℕ) :
    List DrawingElement × ℕ :=
  match c with
  | .g t cs =>
      let off := offsetOf t
      visitList ⟨cur.x + off.x, cur.y + off.y⟩ cs nid
  | leaf => visitLeaf cur leaf nid

/-- The `children.forEach` loop. -/
def visitList (cur : Pt) (cs : List SvgNode) (nid : ℕ) :
    List DrawingElement × ℕ :=
  match cs with
  | [] => ([], nid)
  | c :: rest =>
      let r1 := visitChild cur c nid
      let r2 := visitList cur rest r1.2
      (r1.1 ++ r2.1, r2.2)

end

/-- `traverse(svgEl, {x:0, y:0})`: the walk starts at the root's
children (the root itself never yields an element). -/
def traverseRoot (root : SvgNode) : List DrawingElement :=
  match root with
  | .g _ _ => (visitChild ⟨0, 0⟩ root 0).1
  | _ => []

/-!
The initialization `useEffect`, modelled over the `DOMParser` result:
`ParsedDoc.drawingState` holds the JSON payload of the
`desc#drawing-state` node when present (as the value tree `JSON.parse`
recovers from its text content), `root` the SVG node tree; a whole
failed parse is `none` at the `Option ParsedDoc` level. A
`decodeElements` failure models `JSON.parse` throwing (or the parsed
value not being an element array), which sends the importer into the
raw-markup fallback. The flattened static markup that `handleSave` also
embeds is serialized by the escaping `innerHTML` getter (it cannot break
well-formedness) and is not consumed by the structured fast path, so it
is not modelled further.
-/

/-- The editor cells the initialization effect writes. -/
structure ImportResult where
  elements : List DrawingElement
  history : List (List DrawingElement)
  historyStep : Int
  hasParsedContent : Bool
deriving DecidableEq

/-- The raw-markup fallback: traverse, and seed only when at least one
element was recovered (after `normalizeAndFit`). -/
def importFallbackPath (root? : Option SvgNode) : ImportResult :=
  match root? with
  | none => ⟨[], [], -1, false⟩
  | some r =>
      let els := traverseRoot r
      if 0 < els.length then
        let fitted := normalizeAndFit els
        ⟨fitted, [fitted], 0, true⟩
      else ⟨[], [], -1, false⟩

/-- The editor state right after the initialization effect seeded a
recovered element set: `setElements`, `setHistory([els])`,
`setHistoryStep(0)`, `setHasParsedContent(true)`. -/
def seedState (seed : List DrawingElement) : EditorState :=
  { elements := seed, history := [seed], historyStep := 0,
    hasParsedContent := true }

/-- A sequence of commits, oldest first. -/
def commitList (cs : List (List DrawingElement)) (s : EditorState) :
    EditorState :=
  cs.foldl pushHistory s

def undoN : ℕ → EditorState → EditorState
  | 0, s => s
  | k + 1, s => undoN k (undo s)

def redoN : ℕ → EditorState → EditorState
  | 0, s => s
  | j + 1, s => redoN j (redo s)

/-- A concrete element used by the concrete-input theorems below. -/
def ceElement : DrawingElement :=
  { id := 1, type := .line, points := some [⟨0, 0⟩, ⟨1, 1⟩] }

/-- The final state of the C1 scenario at `N = 1`, `k = 0`, `j = 0` from
an (empty-set) seeded history. -/
def c1Final : EditorState :=
  redoN 0 (undoN 0 (commitList [[ceElement]] (seedState [])))

/-- The editor state right after a mouse-down at `(5,5)` with the line
tool on a freshly seeded empty session: the anchor and the current point
coincide (a zero-size drag about to be released). -/
def c5Start : EditorState :=
  { seedState [] with
    tool := .line, isDrawing := true,
    startPoint := some ⟨5, 5⟩, currentPoint := some ⟨5, 5⟩ }

/-- A state with the polygon tool active and one pending vertex. -/
def c7Start : EditorState :=
  { seedState [] with
    tool := .polygon, polyPoints := [⟨1, 2⟩] }

/-- A plain scan for an occurrence of the literal `translate(`. -/
def hasTranslateParen : List Char → Bool
  | [] => false
  | c :: rest => startsWithCh translateLit (c :: rest) || hasTranslateParen rest

/-- A text element as both accumulators see it. -/
def c9Text : DrawingElement :=
  { id := 1, type := .text, x := some 0, y := some 0,
    text := some "hi", style := some ⟨24⟩ }

/-- The spec's own bounding-box example set: a rectangle at (10,10)
sized 20×30 and a circle centred at (50,50) with radius 5. -/
def c9CommonSet : List DrawingElement :=
  [{ id := 1, type := .rect, x := some 10, y := some 10,
     width := some 20, height := some 30 },
   { id := 2, type := .circle, x := some 50, y := some 50, r := some 5 }]

/-- The C6 point-count property: a polygon/triangle element carries at
least one point. -/
def geomOk (e : DrawingElement) : Prop :=
  (e.type = .polygon ∨ e.type = .triangle) → 1 ≤ (e.points.getD []).length

/-- The raw SVG document of the C6 counterexample: a single polygon leaf
with two points. -/
def c6Doc : SvgNode := .g none [.polygon (some "0,0 10,0") none none none]

/-- A state with the triangle tool mid-drag. -/
def c6TriState : EditorState :=
  { seedState [] with
    tool := .triangle, isDrawing := true,
    startPoint := some ⟨0, 0⟩, currentPoint := some ⟨10, 10⟩ }

/-- Reading the last entry of an appended-to list. -/
theorem getD_append_last (l : List α) (a d : α) :
    (l ++ [a]).getD ((l ++ [a]).length - 1) d = a := by
  induction l with
  | nil => rfl
  | cons b t ih => simp

/-- Committing with the cursor on the last snapshot appends. -/
theorem pushHistory_append (s : EditorState) (els : List DrawingElement)
    (h : s.historyStep = (s.history.length : Int) - 1) :
    pushHistory s els =
      { s with history := s.history ++ [els],
               historyStep := (s.history.length : Int),
               elements := els } := by
  have h2 : (s.historyStep + 1).toNat = s.history.length := by omega
  simp [pushHistory, h2, List.take_length]

/-- Iterated commits from a cursor-at-end state append all snapshots and
leave the cursor on the last one, which is also the active set. -/
theorem commitList_spec :
    ∀ (cs : List (List DrawingElement)) (s : EditorState),
    s.historyStep = (s.history.length : Int) - 1 →
    s.elements = s.history.getD (s.history.length - 1) [] →
    (commitList cs s).history = s.history ++ cs ∧
    (commitList cs s).historyStep
        = (s.history.length + cs.length : Int) - 1 ∧
    (commitList cs s).elements
        = (s.history ++ cs).getD (s.history.length + cs.length - 1) [] ∧
    (commitList cs s).hasParsedContent = s.hasParsedContent := by
  intro cs
  induction cs with
  | nil => intro s h he; simpa [commitList] using ⟨h, by simpa using he⟩
  | cons c rest ih =>
      intro s h he
      have hp := pushHistory_append s c h
      have step1 : (pushHistory s c).historyStep
          = ((pushHistory s c).history.length : Int) - 1 := by
        rw [hp]; simp
      have elem1 : (pushHistory s c).elements
          = (pushHistory s c).history.getD
              ((pushHistory s c).history.length - 1) [] := by
        rw [hp]
        show c = (s.history ++ [c]).getD ((s.history ++ [c]).length - 1) []
        rw [getD_append_last]
      obtain ⟨ha, hb, hc, hd⟩ := ih (pushHistory s c) step1 elem1
      simp only [commitList, List.foldl_cons] at *
      refine ⟨?_, ?_, ?_, ?_⟩
      · rw [ha, hp]
        show s.history ++ [c] ++ rest = s.history ++ c :: rest
        simp
      · rw [hb, hp]
        show ((s.history ++ [c]).length : Int) + rest.length - 1
            = (s.history.length : Int) + (c :: rest).length - 1
        simp only [List.length_append, List.length_cons, List.length_nil]
        push_cast
        omega
      · rw [hc, hp]
        show (s.history ++ [c] ++ rest).getD
              ((s.history ++ [c]).length + rest.length - 1) []
            = (s.history ++ c :: rest).getD
              (s.history.length + (c :: rest).length - 1) []
        have h1 : s.history ++ [c] ++ rest = s.history ++ c :: rest := by simp
        have h2 : (s.history ++ [c]).length + rest.length - 1
            = s.history.length + (c :: rest).length - 1 := by
          simp only [List.length_append, List.length_cons, List.length_nil]
          omega
        rw [h1, h2]
      · rw [hd, hp]

/-- One undo from a positive cursor `m + 1`. -/
theorem undo_step (s : EditorState) (m : ℕ)
    (h : s.historyStep = ((m + 1 : ℕ) : Int)) :
    undo s = { s with historyStep := (m : Int),
                      elements := s.history.getD m [] } := by
  have hpos : 0 < s.historyStep := by omega
  have ht : (s.historyStep - 1).toNat = m := by omega
  simp [undo, hpos, ht]
  omega

/-- `k` undos from cursor `m ≥ k` land on cursor `m − k` and restore
that snapshot, leaving the history itself untouched. -/
theorem undoN_spec :
    ∀ (k : ℕ) (s : EditorState) (m : ℕ),
    s.historyStep = (m : Int) → s.elements = s.history.getD m [] →
    k ≤ m →
    undoN k s = { s with historyStep := ((m - k : ℕ) : Int),
                         elements := s.history.getD (m - k) [] } := by
  intro k
  induction k with
  | zero =>
      intro s m hm he _
      cases s
      simp_all [undoN]
  | succ k ih =>
      intro s m hm he hk
      obtain ⟨m', rfl⟩ : ∃ m', m = m' + 1 := ⟨m - 1, by omega⟩
      have hu := undo_step s m' hm
      have hstep : (undo s).historyStep = ((m' : ℕ) : Int) := by rw [hu]
      have helem : (undo s).elements = (undo s).history.getD m' [] := by
        rw [hu]
      have hrec := ih (undo s) m' hstep helem (by omega)
      rw [hu] at hrec
      have harith : m' + 1 - (k + 1) = m' - k := by omega
      simp only [undoN]
      rw [hu, harith]
      exact hrec

/-- One redo from cursor `m` with a snapshot ahead. -/
theorem redo_step (s : EditorState) (m : ℕ)
    (h : s.historyStep = (m : Int)) (hlt : m + 1 < s.history.length) :
    redo s = { s with historyStep := ((m + 1 : ℕ) : Int),
                      elements := s.history.getD (m + 1) [] } := by
  have hc : s.historyStep < (s.history.length : Int) - 1 := by omega
  have ht : (s.historyStep + 1).toNat = m + 1 := by omega
  simp [redo, hc, ht]
  omega

/-- `j` redos from cursor `m` with `m + j` still in range land on cursor
`m + j` and restore that snapshot, leaving the history untouched. -/
theorem redoN_spec :
    ∀ (j : ℕ) (s : EditorState) (m : ℕ),
    s.historyStep = (m : Int) → s.elements = s.history.getD m [] →
    m + j ≤ s.history.length - 1 →
    redoN j s = { s with historyStep := ((m + j : ℕ) : Int),
                         elements := s.history.getD (m + j) [] } := by
  intro j
  induction j with
  | zero =>
      intro s m hm he _
      cases s
      simp_all [redoN]
  | succ j ih =>
      intro s m hm he hj
      have hlen : 0 < s.history.length := by omega
      have hlt : m + 1 < s.history.length := by omega
      have hr := redo_step s m hm hlt
      have hstep : (redo s).historyStep = ((m + 1 : ℕ) : Int) := by rw [hr]
      have helem : (redo s).elements = (redo s).history.getD (m + 1) [] := by
        rw [hr]
      have hrange : (m + 1) + j ≤ (redo s).history.length - 1 := by
        rw [hr]
        show (m + 1) + j ≤ s.history.length - 1
        omega
      have hrec := ih (redo s) (m + 1) hstep helem hrange
      rw [hr] at hrec
      have harith : m + (j + 1) = m + 1 + j := by omega
      simp only [redoN]
      rw [hr, harith]
      exact hrec

/-- C1 (counterexample): with a seeded history and `N = 1`, `k = 0`,
`j = 0`, the history after the sequence is `[seed, c₁]` and the active
set is `c₁` — the snapshot at index `N−1−k+j = 0` of that history is the
seed, not the active set, so the claimed index is off by one. -/
theorem history_linearity_claim_counterexample :
    c1Final.elements ≠ c1Final.history.getD (1 - 1 - 0 + 0) [] := by
  decide

/-- C1 (amended): for N commits from a seeded history followed by
`k ≤ N` undos and `j ≤ k` redos, the history is the seed followed by the
N committed snapshots, and the active set is the snapshot at index
`N−k+j` of that history (index 0 being the seed) — equivalently, the
`(N−1−k+j)`-th committed set when `N−k+j ≥ 1`, and the seed snapshot
when `k = N, j = 0`. -/
theorem history_linearity_seeded (seed : List DrawingElement)
    (cs : List (List DrawingElement)) (k j : ℕ)
    (hk : k ≤ cs.length) (hj : j ≤ k) :
    (redoN j (undoN k (commitList cs (seedState seed)))).history
        = seed :: cs ∧
    (redoN j (undoN k (commitList cs (seedState seed)))).historyStep
        = ((cs.length - k + j : ℕ) : Int) ∧
    (redoN j (undoN k (commitList cs (seedState seed)))).elements
        = (seed :: cs).getD (cs.length - k + j) [] := by
  have h0 : (seedState seed).historyStep
      = (((seedState seed).history.length : Int)) - 1 := by
    simp [seedState]
  have h0e : (seedState seed).elements
      = (seedState seed).history.getD ((seedState seed).history.length - 1) [] := by
    simp [seedState]
  obtain ⟨ha, hb, hc, _⟩ := commitList_spec cs (seedState seed) h0 h0e
  have hseedlist : (seedState seed).history = [seed] := rfl
  rw [hseedlist] at ha hb hc
  have hcons : [seed] ++ cs = seed :: cs := rfl
  rw [hcons] at ha hc
  have hb2 : (commitList cs (seedState seed)).historyStep
      = ((cs.length : ℕ) : Int) := by
    rw [hb]; simp
  have hc2 : (commitList cs (seedState seed)).elements
      = (commitList cs (seedState seed)).history.getD cs.length [] := by
    rw [hc, ha]
    congr 1
    simp
  have hu := undoN_spec k (commitList cs (seedState seed)) cs.length hb2 hc2 hk
  have hstep2 : (undoN k (commitList cs (seedState seed))).historyStep
      = ((cs.length - k : ℕ) : Int) := by rw [hu]
  have helem2 : (undoN k (commitList cs (seedState seed))).elements
      = (undoN k (commitList cs (seedState seed))).history.getD
          (cs.length - k) [] := by rw [hu]
  have hrange : (cs.length - k) + j
      ≤ (undoN k (commitList cs (seedState seed))).history.length - 1 := by
    rw [hu]
    show (cs.length - k) + j ≤ (commitList cs (seedState seed)).history.length - 1
    rw [ha]
    simp only [List.length_cons]
    omega
  have hr := redoN_spec j (undoN k (commitList cs (seedState seed)))
    (cs.length - k) hstep2 helem2 hrange
  have harith : cs.length - k + j = (cs.length - k) + j := rfl
  refine ⟨?_, ?_, ?_⟩
  · rw [hr, hu]
    exact ha
  · rw [hr, hu]
  · rw [hr, hu]
    show (commitList cs (seedState seed)).history.getD ((cs.length - k) + j) []
        = (seed :: cs).getD (cs.length - k + j) []
    rw [ha, harith]

/-- C2: committing with the cursor at index `c` keeps exactly the first
`c + 1` snapshots (discarding every later one), appends the new set, so
the history has length `c + 2`, the cursor sits on the last (new)
snapshot, and a subsequent redo is a no-op. -/
theorem commit_truncates (s : EditorState) (els : List DrawingElement)
    (h1 : -1 ≤ s.historyStep) (h2 : s.historyStep < (s.history.length : Int)) :
    (pushHistory s els).history
        = s.history.take (s.historyStep + 1).toNat ++ [els] ∧
    ((pushHistory s els).history.length : Int) = s.historyStep + 2 ∧
    (pushHistory s els).historyStep = s.historyStep + 1 ∧
    (pushHistory s els).historyStep
        = ((pushHistory s els).history.length : Int) - 1 ∧
    (pushHistory s els).elements = els ∧
    redo (pushHistory s els) = pushHistory s els := by
  have hlen : (s.history.take (s.historyStep + 1).toNat).length
      = (s.historyStep + 1).toNat := by
    simp [List.length_take]
    omega
  have e1 : (pushHistory s els).history
      = s.history.take (s.historyStep + 1).toNat ++ [els] := rfl
  have hlen2 : ((pushHistory s els).history.length : Int)
      = s.historyStep + 2 := by
    rw [e1]
    simp only [List.length_append, List.length_cons, List.length_nil, hlen]
    omega
  have e2 : (pushHistory s els).historyStep
      = ((pushHistory s els).history.length : Int) - 1 := rfl
  have e3 : (pushHistory s els).historyStep = s.historyStep + 1 := by
    rw [e2, hlen2]; omega
  have hnoredo : ¬ ((pushHistory s els).historyStep
      < ((pushHistory s els).history.length : Int) - 1) := by
    rw [e2]; omega
  exact ⟨e1, hlen2, e3, e2, rfl, by simp [redo, hnoredo]⟩

/-- C2 witness at a concrete state (seeded empty history, one commit):
the redo after the commit is a no-op. -/
theorem commit_truncates_witness :
    redo (pushHistory (seedState []) [ceElement])
        = pushHistory (seedState []) [ceElement] :=
  (commit_truncates (seedState []) [ceElement] (by decide)
    (by decide)).2.2.2.2.2

/-- C3: undo at cursor 0 empties the active set and moves the cursor to
the pseudo-step −1 while leaving the history untouched; a further undo
in that state changes nothing, and redo with the cursor on the last
snapshot changes nothing. All three are total functions (no error
path). -/
theorem undo_redo_out_of_range (s s' : EditorState)
    (h0 : s.historyStep = 0)
    (hl : s'.historyStep = (s'.history.length : Int) - 1) :
    (undo s).elements = [] ∧
    (undo s).historyStep = -1 ∧
    (undo s).history = s.history ∧
    undo (undo s) = undo s ∧
    redo s' = s' := by
  have hu : undo s = { s with historyStep := -1, elements := [] } := by
    simp [undo, h0]
  have hnoredo : ¬ (s'.historyStep < (s'.history.length : Int) - 1) := by
    omega
  refine ⟨by rw [hu], by rw [hu], by rw [hu], ?_, by simp [redo, hnoredo]⟩
  rw [hu]
  simp [undo]

/-- C3 witness at a concrete state (seeded empty history): undo lands on
the pseudo-step −1. -/
theorem undo_redo_out_of_range_witness :
    (undo (seedState [])).historyStep = -1 :=
  (undo_redo_out_of_range (seedState []) (seedState []) (by decide)
    (by decide)).2.1

/-- One redo from the pseudo-cursor −1 restores the first snapshot. -/
theorem redo_from_neg_one (s : EditorState) (h : s.historyStep = -1)
    (hlen : 0 < s.history.length) :
    redo s = { s with historyStep := 0, elements := s.history.getD 0 [] } := by
  have hc : s.historyStep < (s.history.length : Int) - 1 := by omega
  have ht : (s.historyStep + 1).toNat = 0 := by omega
  simp [redo, hc, ht]
  omega

/-- C10: undo and redo never modify the history sequence (only the
cursor and the active set change), and on any reachable state — cursor
in range and active set equal to the cursor's snapshot — an undo is
exactly reverted by a redo. -/
theorem undo_redo_frame (s : EditorState) :
    (undo s).history = s.history ∧
    (redo s).history = s.history ∧
    (0 ≤ s.historyStep → s.historyStep < (s.history.length : Int) →
      s.elements = s.history.getD s.historyStep.toNat [] →
      redo (undo s) = s) := by
  refine ⟨?_, ?_, ?_⟩
  · unfold undo; split_ifs <;> rfl
  · unfold redo; split_ifs <;> rfl
  · intro hge hlt hinv
    by_cases hpos : 0 < s.historyStep
    · have hm : s.historyStep = (((s.historyStep - 1).toNat + 1 : ℕ) : Int) := by
        omega
      have hu := undo_step s (s.historyStep - 1).toNat hm
      have hr := redo_step (undo s) (s.historyStep - 1).toNat
        (by rw [hu])
        (by rw [hu]
            show (s.historyStep - 1).toNat + 1 < s.history.length
            omega)
      rw [hr, hu]
      have hstep : ((((s.historyStep - 1).toNat + 1 : ℕ)) : Int)
          = s.historyStep := by omega
      have helems : s.history.getD ((s.historyStep - 1).toNat + 1) []
          = s.elements := by
        rw [hinv]
        congr 1
        omega
      show { s with
          historyStep := ((((s.historyStep - 1).toNat + 1 : ℕ)) : Int),
          elements := s.history.getD ((s.historyStep - 1).toNat + 1) [] } = s
      rw [hstep, helems]
    · have h0 : s.historyStep = 0 := by omega
      have hu : undo s = { s with historyStep := -1, elements := [] } := by
        simp [undo, h0]
      have hru := redo_from_neg_one (undo s)
        (by rw [hu]) (by rw [hu]; show 0 < s.history.length; omega)
      rw [hru, hu]
      have helems : s.history.getD 0 [] = s.elements := by
        rw [hinv]
        congr 1
        omega
      show { s with historyStep := (0 : Int),
                    elements := s.history.getD 0 [] } = s
      rw [helems, ← h0]

/-- C10 witness at a concrete reachable state: the undo from the seeded
state is reverted by redo. -/
theorem undo_redo_frame_witness :
    redo (undo (seedState [ceElement])) = seedState [ceElement] :=
  (undo_redo_frame (seedState [ceElement])).2.2 (by decide) (by decide)
    (by decide)

/-- C5 (code bug): releasing a zero-size line drag COMMITS a degenerate
zero-length line element and appends a history snapshot — the source has
no degenerate-gesture guard for the single-drag tools, contradicting the
spec's "no element is committed". -/
theorem zero_size_drag_commits :
    (handleMouseUp (fun q => q) 7 c5Start).elements
        = [{ id := 7, type := .line, points := some [⟨5, 5⟩, ⟨5, 5⟩],
             stroke := some "black", strokeWidth := some 2,
             strokeDasharray := some "none", fill := some "none" }] ∧
    (handleMouseUp (fun q => q) 7 c5Start).elements ≠ c5Start.elements ∧
    (handleMouseUp (fun q => q) 7 c5Start).history.length
        = c5Start.history.length + 1 := by
  decide

/-- C7 (counterexample): selecting the line tool while the polygon tool
has a pending vertex leaves that vertex buffer intact — the claimed
clearing on every tool transition does not happen. -/
theorem tool_switch_keeps_poly_buffer :
    (selectTool .line c7Start).polyPoints ≠ [] := by decide

/-- C7 (amended): a tool button only resets the buffers of the tool
being entered — the polygon button clears the polygon vertex buffer and
the angle button clears the angle vertex/first-ray state — while
selecting any other tool leaves the previous tool's pending buffers
untouched (they are merely inert until their tool is re-entered). -/
theorem tool_switch_buffer_policy (s : EditorState) (t : ToolType) :
    (selectTool t s).tool = t ∧
    (selectTool .polygon s).polyPoints = [] ∧
    (selectTool .angle_maker s).angleVertex = none ∧
    (selectTool .angle_maker s).angleStart = none ∧
    (t ≠ .polygon → (selectTool t s).polyPoints = s.polyPoints) ∧
    (t ≠ .angle_maker →
      (selectTool t s).angleVertex = s.angleVertex ∧
      (selectTool t s).angleStart = s.angleStart) := by
  refine ⟨?_, by simp [selectTool], by simp [selectTool],
    by simp [selectTool], ?_, ?_⟩
  · unfold selectTool; split_ifs <;> rfl
  · intro h
    by_cases h1 : t = .angle_maker
    · simp [selectTool, h1]
    · simp [selectTool, h1, h]
  · intro h
    by_cases h2 : t = .polygon
    · simp [selectTool, h, h2]
    · simp [selectTool, h, h2]

/-- C7 witness: switching from polygon (pending vertex) to line keeps
the polygon buffer. -/
theorem tool_switch_buffer_policy_witness :
    (selectTool .line c7Start).polyPoints = c7Start.polyPoints :=
  (tool_switch_buffer_policy c7Start .line).2.2.2.2.1 (by decide)

theorem findTranslate_none_of_not_found (l : List Char)
    (h : hasTranslateParen l = false) : findTranslate l = none := by
  induction l with
  | nil => rfl
  | cons c rest ih =>
      simp only [hasTranslateParen, Bool.or_eq_false_iff] at h
      simp only [findTranslate, h.1, Bool.false_eq_true, if_false]
      exact ih h.2

/-- C8 (amended): `parseTransform` is total; it returns `{0,0}` on an
absent or empty input and whenever the pattern does not occur; on a
well-formed `translate(x,y)` it extracts the two offsets; but when the
pattern matches with non-numeric captures the coordinates are `NaN`
(`parseFloat` of the captures), not `{0,0}`. -/
theorem parseTransform_defaults (s : String) :
    (hasTranslateParen s.toList = false →
      parseTransform (some s) = (some 0, some 0)) ∧
    parseTransform none = (some 0, some 0) ∧
    parseTransform (some "") = (some 0, some 0) ∧
    parseTransform (some "translate(12,34)") = (some 12, some 34) := by
  refine ⟨?_, rfl, by decide, by with_unfolding_all decide⟩
  intro h
  by_cases hs : s = ""
  · simp [parseTransform, hs]
  · have h2 : findTranslate s.data = none :=
      findTranslate_none_of_not_found _ h
    simp [parseTransform, hs, h2]

/-- C8 witness: a transform description with no translate component
yields the zero offset. -/
theorem parseTransform_defaults_witness :
    parseTransform (some "rotate(45)") = (some 0, some 0) :=
  (parseTransform_defaults "rotate(45)").1 (by decide)

/-- C8 (counterexample): `translate(a,b)` matches the pattern, so
`parseTransform` returns `parseFloat("a")`/`parseFloat("b")` — both
`NaN` — rather than the `{0,0}` the claim promises for an input with no
parsable offset. -/
theorem parseTransform_nan_counterexample :
    parseTransform (some "translate(a,b)") ≠ (some 0, some 0) ∧
    parseTransform (some "translate(a,b)") = (none, none) := by
  decide

/-- C9 (counterexample): on a single text element the two accumulations
disagree — `normalizeAndFit` uses a fixed 20×20 box at the anchor while
the exporter uses the font-size footprint; only the exporter follows the
claimed `accumulateBounds` rules. -/
theorem bounds_disagree_on_text :
    normBounds [c9Text] ≠ saveBounds [c9Text] ∧
    normBounds [c9Text] = some ⟨0, 20, 0, 20⟩ ∧
    saveBounds [c9Text] = some ⟨0, 144 / 5, -24, 24 / 5⟩ := by
  with_unfolding_all decide

theorem bounds_fold_agree :
    ∀ (els : List DrawingElement) (b : Option Box),
    (∀ e ∈ els,
      e.type ≠ .text ∧ e.type ≠ .whiteout ∧ e.type ≠ .angle_maker) →
    els.foldl normStep b = els.foldl saveStep b := by
  intro els
  induction els with
  | nil => intro b _; rfl
  | cons e rest ih =>
      intro b h
      obtain ⟨h1, h2, h3⟩ := h e (List.mem_cons_self e rest)
      have hstep : normStep b e = saveStep b e := by
        unfold normStep saveStep
        simp [h1, h2, h3]
      rw [List.foldl_cons, List.foldl_cons, hstep]
      exact ih (saveStep b e) (fun x hx => h x (List.mem_cons_of_mem e hx))

/-- C9 (amended): the two bounds computations agree exactly on element
sets containing no text, whiteout, or angle-annotation elements (the
kinds on which their extrema rules differ). -/
theorem bounds_agree_on_common_kinds (els : List DrawingElement)
    (h : ∀ e ∈ els,
      e.type ≠ .text ∧ e.type ≠ .whiteout ∧ e.type ≠ .angle_maker) :
    normBounds els = saveBounds els :=
  bounds_fold_agree els none h

/-- C9 witness: on the rectangle-and-circle set the two computations
coincide (and give the box the spec predicts). -/
theorem bounds_agree_on_common_kinds_witness :
    normBounds c9CommonSet = saveBounds c9CommonSet ∧
    saveBounds c9CommonSet = some ⟨10, 55, 10, 55⟩ :=
  ⟨bounds_agree_on_common_kinds c9CommonSet (by decide),
   by with_unfolding_all decide⟩

theorem visitLeaf_geomOk (cur : Pt) (n : SvgNode) (nid : ℕ) :
    ∀ e ∈ (visitLeaf cur n nid).1, geomOk e := by
  cases n with
  | polyline pts stroke sw fill =>
      intro e he
      simp only [visitLeaf] at he
      split_ifs at he with hp
      · simp at he
        subst he
        intro hor
        simp at hor
      · simp at he
  | polygon pts stroke sw fill =>
      intro e he
      simp only [visitLeaf] at he
      split_ifs at he with hp
      · simp at he
        subst he
        intro _
        simpa using hp
      · simp at he
  | line x1 y1 x2 y2 stroke sw fill =>
      intro e he
      simp [visitLeaf] at he
      subst he
      intro hor
      simp at hor
  | rect x y w h stroke sw fill =>
      intro e he
      simp [visitLeaf] at he
      subst he
      intro hor
      simp at hor
  | circle cx cy r stroke sw fill =>
      intro e he
      simp [visitLeaf] at he
      subst he
      intro hor
      simp at hor
  | text x y fs content =>
      intro e he
      simp [visitLeaf] at he
      subst he
      intro hor
      simp at hor
  | g t cs => intro e he; simp [visitLeaf] at he
  | unsupported => intro e he; simp [visitLeaf] at he

theorem visitChild_geomOk :
    ∀ (fuel : ℕ) (c : SvgNode), sizeOf c ≤ fuel →
    ∀ (cur : Pt) (nid : ℕ), ∀ e ∈ (visitChild cur c nid).1, geomOk e := by
  intro fuel
  induction fuel with
  | zero =>
      intro c hc
      exact absurd hc (by cases c <;> simp)
  | succ fuel ih =>
      intro c hc cur nid e he
      cases c with
      | g t cs =>
          rw [visitChild] at he
          have hsz : ∀ c' ∈ cs, sizeOf c' ≤ fuel := by
            intro c' hc'
            have h1 := List.sizeOf_lt_of_mem hc'
            have h2 : sizeOf (SvgNode.g t cs) = 1 + sizeOf t + sizeOf cs := by
              simp
            omega
          have hlist : ∀ (cs' : List SvgNode),
              (∀ c' ∈ cs', sizeOf c' ≤ fuel) →
              ∀ (cur' : Pt) (nid' : ℕ),
              ∀ x ∈ (visitList cur' cs' nid').1, geomOk x := by
            intro cs'
            induction cs' with
            | nil => intro _ cur' nid' x hx; simp [visitList] at hx
            | cons c' rest ihl =>
                intro hsz' cur' nid' x hx
                rw [visitList] at hx
                simp only [List.mem_append] at hx
                rcases hx with hx | hx
                · exact ih c' (hsz' c' (List.mem_cons_self c' rest))
                    cur' nid' x hx
                · exact ihl (fun y hy => hsz' y (List.mem_cons_of_mem c' hy))
                    cur' _ x hx
          exact hlist cs hsz _ nid e he
      | polyline pts stroke sw fill => exact visitLeaf_geomOk cur _ nid e he
      | polygon pts stroke sw fill => exact visitLeaf_geomOk cur _ nid e he
      | line x1 y1 x2 y2 stroke sw fill =>
          exact visitLeaf_geomOk cur _ nid e he
      | rect x y w h stroke sw fill => exact visitLeaf_geomOk cur _ nid e he
      | circle cx cy r stroke sw fill =>
          exact visitLeaf_geomOk cur _ nid e he
      | text x y fs content => exact visitLeaf_geomOk cur _ nid e he
      | unsupported => exact visitLeaf_geomOk cur _ nid e he

theorem traverseRoot_geomOk (root : SvgNode) :
    ∀ e ∈ traverseRoot root, geomOk e := by
  cases root with
  | g t cs =>
      intro e he
      exact visitChild_geomOk (sizeOf (SvgNode.g t cs)) _ le_rfl _ _ e he
  | _ => intro e he; simp [traverseRoot] at he

theorem normalizeAndFit_geomOk (els : List DrawingElement)
    (h : ∀ e ∈ els, geomOk e) :
    ∀ e ∈ normalizeAndFit els, geomOk e := by
  unfold normalizeAndFit
  split_ifs with hlen
  · exact h
  · cases hb : normBounds els with
    | none => exact h
    | some b =>
        intro e he
        simp only [List.mem_map] at he
        obtain ⟨e0, he0, rfl⟩ := he
        intro hor
        have h0 := h e0 he0
        have hlen2 : ∀ (g : Pt → Pt),
            (((e0.points.map (List.map g)).getD []).length)
              = (e0.points.getD []).length := by
          intro g
          cases e0.points <;> simp
        simp only at hor ⊢
        refine le_trans (h0 ?_) (le_of_eq (hlen2 _).symm)
        exact hor

/-- Every polygon (or triangle) element produced by the raw-markup
fallback import carries at least one point. -/
theorem importFallbackPath_geomOk (root? : Option SvgNode) :
    ∀ e ∈ (importFallbackPath root?).elements, geomOk e := by
  cases root? with
  | none => intro e he; simp [importFallbackPath] at he
  | some r =>
      intro e he
      simp only [importFallbackPath] at he
      split_ifs at he with hlen
      · exact normalizeAndFit_geomOk _ (traverseRoot_geomOk r) e he
      · simp at he

/-- `handleDoubleClick` either leaves the element set unchanged, or the
polygon tool was active with at least 3 pending vertices and exactly the
closed polygon over those vertices was appended. -/
theorem doubleClick_commit_dichotomy (now : ℚ) (s : EditorState) :
    (handleDoubleClick now s).elements = s.elements ∨
    (s.tool = .polygon ∧ 3 ≤ s.polyPoints.length ∧
      (handleDoubleClick now s).elements = s.elements ++
        [{ id := now, type := .polygon, points := some s.polyPoints,
           stroke := some "black", strokeWidth := some s.strokeWidth,
           strokeDasharray := some s.strokeDash, fill := some "none" }]) := by
  by_cases hc : s.tool = .polygon ∧ 2 < s.polyPoints.length
  · right
    refine ⟨hc.1, by omega, ?_⟩
    simp [handleDoubleClick, hc, pushHistory]
  · left
    simp only [handleDoubleClick, if_neg hc]
    by_cases h2 : s.tool = .select ∧ selectedIdTruthy s = true
    · rw [if_pos h2]
      rcases hfind : s.elements.find? (fun e => e.id = s.selectedId.getD 0)
        with _ | el
      · rw [hfind]
      · rw [hfind]
        by_cases htext : el.type = .text
        · simp [htext]
        · simp [htext]
    · rw [if_neg h2]

/-- The triangle tool's completed drag always commits exactly one
element carrying three points. -/
theorem triangle_commit_three_points (sqrtFn : ℚ → ℚ) (now : ℚ)
    (s : EditorState) (sp cp : Pt) (ht : s.tool = .triangle)
    (hd : s.isDrawing = true) (hsp : s.startPoint = some sp)
    (hcp : s.currentPoint = some cp) :
    (handleMouseUp sqrtFn now s).elements
        = s.elements ++ [mouseUpElement sqrtFn now s sp cp] ∧
    ((mouseUpElement sqrtFn now s sp cp).points.getD []).length = 3 := by
  constructor
  · simp [handleMouseUp, ht, hd, hsp, hcp, pushHistory]
  · simp [mouseUpElement, ht]

/-- C6 (counterexample): the raw-markup fallback happily recovers a
polygon element with only two points (its guard is `points.length > 0`,
not `≥ 3`), so the invariant "every polygon element has ≥ 3 points"
fails for fallback-imported elements. -/
theorem fallback_polygon_two_points :
    (importFallbackPath (some c6Doc)).elements.length = 1 ∧
    (∀ e ∈ (importFallbackPath (some c6Doc)).elements,
      e.type = .polygon ∧ (e.points.getD []).length = 2) ∧
    ¬ (∀ e ∈ (importFallbackPath (some c6Doc)).elements,
        e.type = .polygon → 3 ≤ (e.points.getD []).length) := by
  with_unfolding_all decide

/-- C6 (amended): polygon elements committed by the polygon tool's
double-click have ≥ 3 points (the gesture requires more than 2 pending
vertices) and triangle elements committed by the triangle tool have
exactly 3 points; but a polygon element recovered by the raw-markup
fallback is only guaranteed a non-empty (≥ 1 point) points array. -/
theorem polygon_triangle_point_counts
    (now1 : ℚ) (s1 : EditorState)
    (sqrtFn : ℚ → ℚ) (now2 : ℚ) (s2 : EditorState) (sp cp : Pt)
    (root : SvgNode)
    (ht : s2.tool = .triangle) (hd : s2.isDrawing = true)
    (hsp : s2.startPoint = some sp) (hcp : s2.currentPoint = some cp) :
    ((handleDoubleClick now1 s1).elements = s1.elements ∨
      (s1.tool = .polygon ∧ 3 ≤ s1.polyPoints.length ∧
        (handleDoubleClick now1 s1).elements = s1.elements ++
          [{ id := now1, type := .polygon, points := some s1.polyPoints,
             stroke := some "black", strokeWidth := some s1.strokeWidth,
             strokeDasharray := some s1.strokeDash,
             fill := some "none" }])) ∧
    ((handleMouseUp sqrtFn now2 s2).elements
        = s2.elements ++ [mouseUpElement sqrtFn now2 s2 sp cp] ∧
      ((mouseUpElement sqrtFn now2 s2 sp cp).points.getD []).length = 3) ∧
    (∀ e ∈ (importFallbackPath (some root)).elements, geomOk e) :=
  ⟨doubleClick_commit_dichotomy now1 s1,
   triangle_commit_three_points sqrtFn now2 s2 sp cp ht hd hsp hcp,
   importFallbackPath_geomOk (some root)⟩

/-- C6 witness: the triangle drag from (0,0) to (10,10) commits an
element with exactly three points. -/
theorem polygon_triangle_point_counts_witness :
    ((mouseUpElement (fun q => q) 9 c6TriState ⟨0, 0⟩ ⟨10, 10⟩).points.getD
        []).length = 3 :=
  (polygon_triangle_point_counts 9 (seedState []) (fun q => q) 9 c6TriState
    ⟨0, 0⟩ ⟨10, 10⟩ c6Doc (by decide) (by decide) (by decide)
    (by decide)).2.1.2

/-- C1 witness: seeded empty history, one commit, one undo, one redo —
the active set is the history snapshot at index `N−k+j = 1` (the single
committed set). -/
theorem history_linearity_seeded_witness :
    (redoN 1 (undoN 1 (commitList [[ceElement]] (seedState [])))).elements
        = [[], [ceElement]].getD 1 [] :=
  (history_linearity_seeded [] [[ceElement]] 1 1 (by decide)
    (by decide)).2.2
